import Mathlib

/-!
Verification development for the `automation` repository (`budget.py`).

The pipeline under verification reads transaction CSV files
(`read_transactions`), sorts the combined batch by date
(`process_multiple_files`), classifies each transaction through an external
service (`categorize_transaction`), groups the classified transactions into a
nested insertion-ordered mapping, and renders a report (`export_to_csv`,
`format_amount`).

Modelling conventions:
* Python `float` values are modelled as exact rationals `ℚ`.  The amounts the
  program manipulates are short decimal strings, for which binary floating
  point and exact rational arithmetic agree on parsing and on the two-decimal
  rendering used by the report.
* `float(s)` is modelled by `pythonFloat`, covering the optional sign, decimal
  point and exponent forms of the Python float grammar (the `inf`/`nan` words
  and underscore digit separators are not modelled; no input here uses them).
* Python `str.strip()` is modelled by `pyStrip` using `Char.isWhitespace`.
* CSV rows are records with the fields this program reads; the `row.get`
  defaults of the source are the natural defaults of the record.
* The external classification service is an oracle argument of type
  `Except String String`: `Except.ok` carries the response text,
  `Except.error` stands for any transport/timeout/quota/malformed-response
  exception raised inside the `try` block of `categorize_transaction`.
* A Python statement that raises an uncaught exception is modelled by `none`
  (for expression-level failure) or by `Except.error "ValueError"` at the
  level of `process_multiple_files`.
-/

/-! ### Character-list primitives used to model Python string operations -/

/-- Split a character list on every occurrence of the character `c`
(the semantics of Python `str.split(sep)` for a one-character separator). -/
def splitOnChar (c : Char) : List Char → List (List Char)
  | [] => [[]]
  | a :: rest =>
    let r := splitOnChar c rest
    if a = c then [] :: r
    else
      match r with
      | [] => [[a]]
      | h :: t => (a :: h) :: t

/-- Python `str.strip()` with no argument: remove leading and trailing
whitespace characters. -/
def pyStrip (s : String) : String :=
  (((s.toList.dropWhile Char.isWhitespace).reverse.dropWhile Char.isWhitespace).reverse).asString

/-- Python `s.replace(old, '')` for a one-character `old`: remove every
occurrence of the character. -/
def removeChar (c : Char) (s : String) : String :=
  (s.toList.filter (fun a => a != c)).asString

/-- Python `str.split(sep, 1)` for a one-character separator: split at the
first occurrence only. -/
def pySplit1 (c : Char) (s : String) : List String :=
  let cs := s.toList
  if cs.contains c then
    [(cs.takeWhile (fun a => a != c)).asString,
     ((cs.dropWhile (fun a => a != c)).drop 1).asString]
  else [s]

/-- Does `hay` contain `needle` as a contiguous substring
(the semantics of Python `needle in hay`)? -/
def hasSubstr (needle : List Char) : List Char → Bool
  | [] => needle.isEmpty
  | c :: rest => needle.isPrefixOf (c :: rest) || hasSubstr needle rest

/-- Numeric value of a digit list (most significant first). -/
def digitsVal (cs : List Char) : ℕ :=
  cs.foldl (fun n c => 10 * n + (c.toNat - 48)) 0

/-- All characters are ASCII digits. -/
def allDigits (cs : List Char) : Bool :=
  cs.all Char.isDigit

/-! ### The Python `float` constructor on strings -/

/-- The digit data recognised by `float(s)`:
`(negative sign, integer part, fraction part, fraction length, exponent)`.
The grammar is Python's: optional surrounding whitespace, an optional sign,
a mantissa of digits with at most one decimal point (at least one digit
overall), and an optional `e`/`E` exponent with its own optional sign. -/
def pythonFloatParts (s : String) : Option (Bool × ℕ × ℕ × ℕ × ℤ) := do
  let cs := (pyStrip s).toList
  let (neg, cs) :=
    match cs with
    | '-' :: rest => (true, rest)
    | '+' :: rest => (false, rest)
    | _ => (false, cs)
  let (mant, expVal) ←
    match splitOnChar 'e' (cs.map Char.toLower) with
    | [m] => some (m, (0 : ℤ))
    | [m, ex] =>
      let (exNeg, exDigits) :=
        match ex with
        | '-' :: rest => (true, rest)
        | '+' :: rest => (false, rest)
        | _ => (false, ex)
      if allDigits exDigits ∧ exDigits ≠ [] then
        some (m, if exNeg then -(digitsVal exDigits : ℤ) else (digitsVal exDigits : ℤ))
      else none
    | _ => none
  match splitOnChar '.' mant with
  | [i] =>
    if allDigits i ∧ i ≠ [] then some (neg, digitsVal i, 0, 0, expVal) else none
  | [i, f] =>
    if allDigits i ∧ allDigits f ∧ (i ≠ [] ∨ f ≠ []) then
      some (neg, digitsVal i, digitsVal f, f.length, expVal)
    else none
  | _ => none

/-- The rational value denoted by parsed float data. -/
def ratOfParts (p : Bool × ℕ × ℕ × ℕ × ℤ) : ℚ :=
  (if p.1 then -1 else 1) * ((p.2.1 : ℚ) + (p.2.2.1 : ℚ) / 10 ^ p.2.2.2.1) * 10 ^ p.2.2.2.2

/-- Python `float(s)`: `none` models a raised `ValueError`. -/
def pythonFloat (s : String) : Option ℚ :=
  (pythonFloatParts s).map ratOfParts

/-- `budget.py` lines 84–91: `float(amount_str)`, and on `ValueError` a retry
after stripping `$` and `,`.  A `none` result models the second `float` call
raising an uncaught `ValueError`. -/
def parseAmount (s : String) : Option ℚ :=
  match pythonFloat s with
  | some v => some v
  | none => pythonFloat (removeChar ',' (removeChar '$' s))

/-! ### Two-decimal rendering (`f"{x:.2f}"`) and `format_amount` -/

/-- Round a nonnegative rational to the nearest integer, ties to even
(the rounding used by Python's `format`). -/
def roundHalfEven (x : ℚ) : ℤ :=
  let fl := ⌊x⌋
  if x - fl < 1/2 then fl
  else if 1/2 < x - fl then fl + 1
  else if fl % 2 = 0 then fl else fl + 1

/-- Left-pad to two digits. -/
def pad2 (n : ℕ) : String :=
  if n < 10 then "0" ++ toString n else toString n

/-- `f"{x:.2f}"` for a nonnegative rational: two-decimal fixed-point text. -/
def fmt2 (x : ℚ) : String :=
  let cents := (roundHalfEven (x * 100)).toNat
  toString (cents / 100) ++ "." ++ pad2 (cents % 100)

/-- `budget.py` lines 149–158 (`format_amount`), numeric path: amounts
strictly greater than zero render as `+$X.XX`, everything else (zero
included) as `-$X.XX`, with `X.XX` the two-decimal absolute magnitude. -/
def format_amount (a : ℚ) : String :=
  if a > 0 then "+$" ++ fmt2 |a| else "-$" ++ fmt2 |a|

/-- `format_amount` on a raw string argument (as used by `display_results`):
`float(amount)` then the numeric path; the bare `except` returns the argument
unchanged. -/
def format_amount_str (s : String) : String :=
  match pythonFloat s with
  | some a => format_amount a
  | none => s

/-! ### `datetime.strptime(s, '%m/%d/%Y')` -/

/-- Gregorian leap-year test. -/
def isLeap (y : ℕ) : Bool :=
  (y % 4 = 0 && y % 100 ≠ 0) || y % 400 = 0

/-- Number of days of month `m` of year `y`. -/
def daysInMonth (y m : ℕ) : ℕ :=
  if m = 2 then (if isLeap y then 29 else 28)
  else if m = 4 ∨ m = 6 ∨ m = 9 ∨ m = 11 then 30
  else 31

/-- `datetime.strptime(s, '%m/%d/%Y')`, returned as `(year, month, day)` so
that the lexicographic order on the triple is chronological order.  `%m` and
`%d` accept one or two digits, `%Y` exactly four; the whole string must be
consumed; the day must exist in the month and `datetime` years start at 1.
`none` models a raised `ValueError`. -/
def strptimeMDY (s : String) : Option (ℕ × ℕ × ℕ) :=
  match splitOnChar '/' s.toList with
  | [ms, ds, ys] =>
    if allDigits ms ∧ allDigits ds ∧ allDigits ys
        ∧ 1 ≤ ms.length ∧ ms.length ≤ 2 ∧ 1 ≤ ds.length ∧ ds.length ≤ 2
        ∧ ys.length = 4 then
      let m := digitsVal ms
      let d := digitsVal ds
      let y := digitsVal ys
      if 1 ≤ m ∧ m ≤ 12 ∧ 1 ≤ d ∧ d ≤ daysInMonth y m ∧ 1 ≤ y then
        some (y, m, d)
      else none
    else none
  | _ => none

/-! ### Data model -/

/-- A raw CSV row, with the columns this program reads.  A column missing
from the file is the empty string (queried through `row.get`, whose defaults
in the debit branch are `''` for text columns and `'0.0'` for
`Amount`/`Balance`). -/
structure RawRow where
  transactionDate : String := ""
  postingDate : String := ""
  description : String := ""
  amount : String := "0.0"
  category : String := ""
  rowType : String := ""
  balance : String := "0.0"
deriving DecidableEq

/-- The standardized transaction dictionary built by `read_transactions`. -/
structure Transaction where
  transactionDate : String
  description : String
  amount : String
  category : String
  txnType : String
  balance : String
  account : String
deriving DecidableEq

/-- The per-transaction record stored into the categorized mapping by
`process_multiple_files` (`budget.py` lines 191–197).  `amount` is the raw
amount string of the transaction, stored unparsed. -/
structure StoredTxn where
  date : String
  description : String
  amount : String
  account : String
  originalCategory : String
deriving DecidableEq

/-- The nested `defaultdict` `categorized[main_category][subcategory]`,
modelled as an insertion-ordered association list of association lists
(Python 3.7+ dictionaries preserve insertion order). -/
abbrev Categorized : Type :=
  List (String × List (String × List StoredTxn))

/-- One input CSV file: its base name, its first (header) line, and its data
rows. -/
structure SourceFile where
  fileName : String
  header : String
  rows : List RawRow

/-! ### `read_transactions` -/

/-- `os.path.basename(file_path).split('_')[0]` (the argument is already the
base name). -/
def accountName (fileName : String) : String :=
  ((splitOnChar '_' fileName.toList).headD []).asString

/-- The header signature that selects the Chase debit mapping:
`'Details,Posting Date,Description,Amount,Type,Balance' in first_line`. -/
def isDebitFormat (firstLine : String) : Bool :=
  hasSubstr "Details,Posting Date,Description,Amount,Type,Balance".toList firstLine.toList

/-- `budget.py` lines 39–77 (`read_transactions`): detect the schema from the
header line and standardize every row.  The debit mapping takes the
transaction date from `Posting Date` and empties the category; any other
header keeps the row as-is (credit mapping).  Every row is kept. -/
def read_transactions (fileName header : String) (rows : List RawRow) : List Transaction :=
  let account := accountName fileName
  let isDebit := isDebitFormat header
  rows.map (fun row =>
    if isDebit then
      { transactionDate := row.postingDate
        description := row.description
        amount := row.amount
        category := ""
        txnType := row.rowType
        balance := row.balance
        account := account }
    else
      { transactionDate := row.transactionDate
        description := row.description
        amount := row.amount
        category := row.category
        txnType := row.rowType
        balance := row.balance
        account := account })

/-! ### `categorize_transaction` -/

/-- The response-parsing step of `categorize_transaction`
(`budget.py` lines 135–140): strip the response, split on the first colon;
the stripped part before the colon is the main category, the stripped part
after it the subcategory, defaulting to `"general"` when there is no colon. -/
def parseCategorization (content : String) : String × String :=
  let categorization := pyStrip content
  let parts := pySplit1 ':' categorization
  let mainCategory := pyStrip (parts.headD "")
  let subcategory := if parts.length > 1 then pyStrip (parts.getD 1 "") else "general"
  (mainCategory, subcategory)

/-- `budget.py` lines 79–147 (`categorize_transaction`): parse the amount
(raising `ValueError`, modelled as `none`, when it cannot be parsed even
after stripping `$` and `,` — this happens before the `try` block), then ask
the classification service; any exception from the service call or from
response handling is caught and mapped to `("Unknown", "error")`. -/
def categorize_transaction (t : Transaction) (response : Except String String) :
    Option (String × String) :=
  match parseAmount t.amount with
  | none => none
  | some _ =>
    some
      (match response with
      | Except.error _ => ("Unknown", "error")
      | Except.ok content => parseCategorization content)

/-! ### The date sort of `process_multiple_files` -/

/-- Chronological comparison of two parsed dates `(year, month, day)`. -/
def dateLe (a b : ℕ × ℕ × ℕ) : Prop :=
  a.1 < b.1 ∨ (a.1 = b.1 ∧ (a.2.1 < b.2.1 ∨ (a.2.1 = b.2.1 ∧ a.2.2 ≤ b.2.2)))

instance (a b : ℕ × ℕ × ℕ) : Decidable (dateLe a b) := by
  unfold dateLe
  infer_instance

/-- The sort key of a transaction, with an arbitrary default for dates that
do not parse (the sorting branch is only taken when every date parses). -/
def dateKeyD (t : Transaction) : ℕ × ℕ × ℕ :=
  (strptimeMDY t.transactionDate).getD (0, 0, 0)

/-- Comparison of transactions by parsed date. -/
def txnLe (a b : Transaction) : Prop :=
  dateLe (dateKeyD a) (dateKeyD b)

instance (a b : Transaction) : Decidable (txnLe a b) := by
  unfold txnLe
  infer_instance

/-- Stable insertion of `t` into a date-sorted list: `t` goes after every
element whose key is less than or equal to its own. -/
def insertByDate (t : Transaction) : List Transaction → List Transaction
  | [] => [t]
  | u :: l => if txnLe u t then u :: insertByDate t l else t :: u :: l

/-- Stable sort by parsed date (the effect of `list.sort(key=...)`). -/
def sortTxns (l : List Transaction) : List Transaction :=
  l.foldl (fun acc t => insertByDate t acc) []

/-- `budget.py` lines 167–171: `all_transactions.sort(key=...)` inside
`try`/`except`.  CPython computes every key before moving any element, so a
date that fails to parse raises before the list is reordered and the bare
`except` leaves the original order for the whole batch. -/
def sort_by_date (ts : List Transaction) : List Transaction :=
  if ts.all (fun t => (strptimeMDY t.transactionDate).isSome) then sortTxns ts else ts

/-! ### Grouping into the nested ordered mapping -/

/-- Append `v` to the entry of `k`, inserting a new entry at the end when `k`
is absent (the behaviour of `defaultdict(list)[k].append(v)` under insertion
order). -/
def insertOM {τ : Type} (k : String) (v : τ) :
    List (String × List τ) → List (String × List τ)
  | [] => [(k, [v])]
  | (k', vs) :: rest =>
    if k' = k then (k', vs ++ [v]) :: rest else (k', vs) :: insertOM k v rest

/-- `categorized[main_category][subcategory].append(txn)` on the nested
insertion-ordered mapping. -/
def insertNested (mk sk : String) (v : StoredTxn) : Categorized → Categorized
  | [] => [(mk, [(sk, [v])])]
  | (k', sm) :: rest =>
    if k' = mk then (k', insertOM sk v sm) :: rest
    else (k', sm) :: insertNested mk sk v rest

/-- The stored record of a transaction (`budget.py` lines 180–197). -/
def storedOf (t : Transaction) : StoredTxn :=
  { date := t.transactionDate
    description := t.description
    amount := t.amount
    account := t.account
    originalCategory := t.category }

/-- The classification loop of `process_multiple_files` (lines 177–197):
classify each transaction in order (the oracle is indexed by position) and
insert the stored record under the returned `(main, sub)` key.  An amount
that cannot be parsed raises `ValueError` out of `categorize_transaction`,
which nothing catches: the whole run aborts. -/
def processLoop (oracle : ℕ → Except String String) :
    ℕ → Categorized → List Transaction → Except String Categorized
  | _, c, [] => Except.ok c
  | i, c, t :: rest =>
    match categorize_transaction t (oracle i) with
    | none => Except.error "ValueError"
    | some (mc, sc) => processLoop oracle (i + 1) (insertNested mc sc (storedOf t) c) rest

/-- `budget.py` lines 160–199 (`process_multiple_files`): read every file in
order, sort the combined batch by date (all-or-nothing), then classify and
group. -/
def process_multiple_files (files : List SourceFile) (oracle : ℕ → Except String String) :
    Except String Categorized :=
  let all := files.flatMap (fun f => read_transactions f.fileName f.header f.rows)
  processLoop oracle 0 [] (sort_by_date all)

/-- The grouping of an already-classified sequence of
`(main, sub, stored transaction)` triples, in arrival order — the data
structure built by the loop above. -/
def buildCategorized (items : List (String × String × StoredTxn)) : Categorized :=
  items.foldl (fun c i => insertNested i.1 i.2.1 i.2.2 c) []

/-! ### Totals and CSV export -/

/-- Evaluate `f` over a list, failing as soon as one element fails — the
effect of a Python generator expression whose body can raise. -/
def omapList {α β : Type} (f : α → Option β) : List α → Option (List β)
  | [] => some []
  | a :: l =>
    match f a with
    | none => none
    | some b => (omapList f l).map (fun bs => b :: bs)

/-- `sum(float(t['amount']) for t in transactions)`: the exact sum of the
parsed stored amounts, `none` when some stored amount makes `float` raise. -/
def bucketTotal (ts : List StoredTxn) : Option ℚ :=
  (omapList (fun t => pythonFloat t.amount) ts).map List.sum

/-- The buckets of the categorized mapping, in report order. -/
def bucketsOf (c : Categorized) : List (List StoredTxn) :=
  c.flatMap (fun p => p.2.map Prod.snd)

/-- `budget.py` lines 222–226 and 333–338: the overall total, a flat sum of
per-bucket sums over the whole categorized mapping. -/
def grandTotal (c : Categorized) : Option ℚ :=
  (omapList bucketTotal (bucketsOf c)).map List.sum

/-- One row of the exported CSV (`budget.py` lines 244–358). -/
structure CsvRow where
  date : String
  description : String
  amount : String
  account : String
  givenCategory : String
  mainCategory : String
  subcategory : String
deriving DecidableEq

/-- An all-empty separator row. -/
def blankRow : CsvRow :=
  ⟨"", "", "", "", "", "", ""⟩

/-- The `Files Processed:` header row. -/
def filesRow (files : List String) : CsvRow :=
  ⟨"Files Processed:", String.intercalate ", " files, "", "", "", "", ""⟩

/-- The header row of a subcategory section, with the unsigned absolute
subtotal `f"${abs(subcategory_total):.2f}"`. -/
def subHeaderRow (mk sk : String) (subtotal : ℚ) : CsvRow :=
  ⟨"", "== " ++ mk ++ ": " ++ sk ++ " ==", "$" ++ fmt2 |subtotal|, "", "", mk, sk⟩

/-- One exported transaction row: the `Amount` column is the stored raw
amount string, written as-is. -/
def txnRow (mk sk : String) (t : StoredTxn) : CsvRow :=
  ⟨t.date, t.description, t.amount, t.account, t.originalCategory, mk, sk⟩

/-- The main-category subtotal row, with the unsigned absolute total
`f"${abs(main_category_total):.2f}"`. -/
def catTotalRow (mk : String) (total : ℚ) : CsvRow :=
  ⟨"", "=== TOTAL " ++ mk ++ " ===", "$" ++ fmt2 |total|, "", "", mk, "TOTAL"⟩

/-- The final overall-total row: the only signed total, via `format_amount`. -/
def grandTotalRow (total : ℚ) : CsvRow :=
  ⟨"", "=== OVERALL TOTAL ===", format_amount total, "", "", "TOTAL", "TOTAL"⟩

/-- The rows of one subcategory section (`budget.py` lines 272–309), paired
with the subcategory total that is added into the category total. -/
def subcatBlock (mk : String) (q : String × List StoredTxn) :
    Option (List CsvRow × ℚ) := do
  let vals ← omapList (fun t => pythonFloat t.amount) q.2
  let subtotal := vals.sum
  pure (subHeaderRow mk q.1 subtotal :: q.2.map (txnRow mk q.1) ++ [blankRow], subtotal)

/-- The rows of one main-category section (`budget.py` lines 269–331). -/
def catBlock (p : String × List (String × List StoredTxn)) : Option (List CsvRow) := do
  let blocks ← omapList (subcatBlock p.1) p.2
  let catTotal := (blocks.map Prod.snd).sum
  pure ((blocks.map Prod.fst).flatten ++ [catTotalRow p.1 catTotal, blankRow])

/-- `budget.py` lines 230–358 (`export_to_csv`), data-assembly part: the
`csv_data` list written to the output file.  `none` models the `ValueError`
raised when a stored amount string cannot be parsed by `float`. -/
def export_to_csv (c : Categorized) (files : List String) : Option (List CsvRow) := do
  let catBlocks ← omapList catBlock c
  let total ← grandTotal c
  pure (filesRow files :: blankRow :: catBlocks.flatten ++ [grandTotalRow total])

/-! ### Spec-side definitions (formalizing the wording of the spec, for
comparison with the source-derived functions above) -/

/-- First-seen order: append each key not seen before, starting from `acc`. -/
def firstSeenFrom (acc : List String) (l : List String) : List String :=
  l.foldl (fun a k => if k ∈ a then a else a ++ [k]) acc

/-- The list of distinct keys of `l`, each at the position of its first
occurrence. -/
def firstSeen (l : List String) : List String :=
  firstSeenFrom [] l

/-- The main-category keys of the categorized mapping, in order. -/
def mainKeys (c : Categorized) : List String :=
  c.map Prod.fst

/-- The subcategory mapping stored under a main category (empty when the
main category is absent). -/
def subsOf (mk : String) (c : Categorized) : List (String × List StoredTxn) :=
  (c.lookup mk).getD []

/-- The subcategory keys under a main category, in order. -/
def subKeys (mk : String) (c : Categorized) : List String :=
  (subsOf mk c).map Prod.fst

/-- The transactions stored under `(mk, sk)`, in order. -/
def bucketAt (mk sk : String) (c : Categorized) : List StoredTxn :=
  ((subsOf mk c).lookup sk).getD []

/-- The parsed value of a stored amount, defaulting to `0` (only used under
the hypothesis that every stored amount parses). -/
def amountValD (t : StoredTxn) : ℚ :=
  (pythonFloat t.amount).getD 0

/-- The exact sum of the parsed amounts of a bucket. -/
def bucketValD (ts : List StoredTxn) : ℚ :=
  (ts.map amountValD).sum

/-- Every stored amount of the categorized mapping parses. -/
def AllAmountsParse (c : Categorized) : Prop :=
  ∀ p ∈ c, ∀ q ∈ p.2, ∀ t ∈ q.2, (pythonFloat t.amount).isSome

instance (c : Categorized) : Decidable (AllAmountsParse c) := by
  unfold AllAmountsParse
  infer_instance

/-! ### Helper lemmas about `omapList` and optional sums -/

theorem omapList_map {α β γ : Type} (f : β → Option γ) (g : α → β) (l : List α) :
    omapList f (l.map g) = omapList (fun a => f (g a)) l := by
  induction l with
  | nil => rfl
  | cons a l ih => simp only [List.map_cons, omapList, ih]

theorem omapList_append {α β : Type} (f : α → Option β) (l₁ l₂ : List α) :
    omapList f (l₁ ++ l₂) =
      (omapList f l₁).bind (fun b₁ => (omapList f l₂).map (fun b₂ => b₁ ++ b₂)) := by
  induction l₁ with
  | nil =>
    cases h : omapList f l₂ <;> simp [omapList, h]
  | cons a l ih =>
    cases ha : f a
    · simp [omapList, List.cons_append, ha]
    · rw [List.cons_append]
      simp only [omapList, ha, ih]
      cases h1 : omapList f l <;> cases h2 : omapList f l₂ <;>
        simp [h1, h2, List.cons_append]

theorem omapList_eq_map {α β : Type} (f : α → Option β) (g : α → β) (l : List α)
    (h : ∀ x ∈ l, f x = some (g x)) : omapList f l = some (l.map g) := by
  induction l with
  | nil => rfl
  | cons a l ih =>
    have ha : f a = some (g a) := h a (List.mem_cons_self a l)
    have hl : omapList f l = some (l.map g) := ih (fun x hx => h x (List.mem_cons_of_mem a hx))
    simp [omapList, ha, hl]

theorem omapList_eq_none {α β : Type} (f : α → Option β) (l : List α)
    (h : ∃ x ∈ l, f x = none) : omapList f l = none := by
  induction l with
  | nil => simp at h
  | cons a l ih =>
    rcases h with ⟨x, hx, hfx⟩
    rcases List.mem_cons.mp hx with rfl | hx'
    · simp [omapList, hfx]
    · cases ha : f a
      · simp [omapList, ha]
      · simp [omapList, ha, ih ⟨x, hx', hfx⟩]

theorem omapList_isSome_iff {α β : Type} (f : α → Option β) (l : List α) :
    (omapList f l).isSome ↔ ∀ x ∈ l, (f x).isSome := by
  induction l with
  | nil => simp [omapList]
  | cons a l ih =>
    cases ha : f a
    · simp [omapList, ha]
    · cases hl : omapList f l <;> simp_all [omapList, ha, hl]

theorem opt_eq_some_getD {α : Type} (o : Option α) (d : α) (h : o.isSome) :
    o = some (o.getD d) := by
  cases o with
  | none => simp at h
  | some v => rfl

theorem osum_perm {α : Type} (f : α → Option ℚ) {l₁ l₂ : List α} (hp : List.Perm l₁ l₂) :
    (omapList f l₁).map List.sum = (omapList f l₂).map List.sum := by
  by_cases h : ∀ x ∈ l₁, (f x).isSome
  · have h₂ : ∀ x ∈ l₂, (f x).isSome := fun x hx => h x (hp.mem_iff.mpr hx)
    rw [omapList_eq_map f (fun x => (f x).getD 0) l₁
        (fun x hx => opt_eq_some_getD _ _ (h x hx)),
      omapList_eq_map f (fun x => (f x).getD 0) l₂
        (fun x hx => opt_eq_some_getD _ _ (h₂ x hx))]
    simp only [Option.map_some']
    exact congrArg some ((hp.map _).sum_eq)
  · push_neg at h
    rcases h with ⟨x, hx, hfx⟩
    have hfx' : f x = none := Option.not_isSome_iff_eq_none.mp hfx
    rw [omapList_eq_none f l₁ ⟨x, hx, hfx'⟩,
      omapList_eq_none f l₂ ⟨x, hp.mem_iff.mp hx, hfx'⟩]

theorem osum_flatten {α : Type} (f : α → Option ℚ) (xs : List (List α)) :
    (omapList (fun x => (omapList f x).map List.sum) xs).map List.sum =
      (omapList f xs.flatten).map List.sum := by
  induction xs with
  | nil => rfl
  | cons b bs ih =>
    simp only [List.flatten_cons, omapList, omapList_append]
    cases hb : omapList f b
    · simp [hb]
    · cases hbs : omapList (fun x => (omapList f x).map List.sum) bs with
      | none =>
        rw [hbs] at ih
        cases hfl : omapList f bs.flatten
        · simp [hb, hbs, hfl]
        · rw [hfl] at ih
          simp at ih
      | some ss =>
        rw [hbs] at ih
        cases hfl : omapList f bs.flatten with
        | none =>
          rw [hfl] at ih
          simp at ih
        | some w =>
          rw [hfl] at ih
          simp only [Option.map_some', Option.some.injEq] at ih
          simp [hb, hbs, hfl, ih, List.sum_append]

/-! ### Helper lemmas about the nested grouping -/

/-- All stored transactions of the categorized mapping, in report order. -/
def allStored (c : Categorized) : List StoredTxn :=
  c.flatMap (fun p => p.2.flatMap (fun q => q.2))

theorem bucketsOf_flatten (c : Categorized) : (bucketsOf c).flatten = allStored c := by
  induction c with
  | nil => rfl
  | cons p c ih =>
    simp only [bucketsOf, allStored, List.flatMap_cons, List.flatten_append] at ih ⊢
    rw [ih, ← List.flatMap_def]

theorem insertOM_cons_eq {τ : Type} (k : String) (v : τ) (vs : List τ)
    (rest : List (String × List τ)) :
    insertOM k v ((k, vs) :: rest) = (k, vs ++ [v]) :: rest := by
  simp [insertOM]

theorem insertOM_cons_ne {τ : Type} (k k' : String) (v : τ) (vs : List τ)
    (rest : List (String × List τ)) (h : k' ≠ k) :
    insertOM k v ((k', vs) :: rest) = (k', vs) :: insertOM k v rest := by
  simp [insertOM, h]

theorem insertNested_cons_eq (mk sk : String) (v : StoredTxn)
    (sm : List (String × List StoredTxn)) (rest : Categorized) :
    insertNested mk sk v ((mk, sm) :: rest) = (mk, insertOM sk v sm) :: rest := by
  simp [insertNested]

theorem insertNested_cons_ne (mk sk k' : String) (v : StoredTxn)
    (sm : List (String × List StoredTxn)) (rest : Categorized) (h : k' ≠ mk) :
    insertNested mk sk v ((k', sm) :: rest) = (k', sm) :: insertNested mk sk v rest := by
  simp [insertNested, h]

theorem insertOM_flat (k : String) (v : StoredTxn) (m : List (String × List StoredTxn)) :
    List.Perm ((insertOM k v m).flatMap (fun q => q.2)) (v :: m.flatMap (fun q => q.2)) := by
  induction m with
  | nil => simp [insertOM]
  | cons q rest ih =>
    obtain ⟨k', vs⟩ := q
    by_cases hk : k' = k
    · subst hk
      rw [insertOM_cons_eq]
      simp only [List.flatMap_cons, List.append_assoc, List.singleton_append]
      exact List.perm_middle
    · rw [insertOM_cons_ne _ _ _ _ _ hk]
      simp only [List.flatMap_cons]
      exact ((ih.append_left vs).trans List.perm_middle)

theorem insertNested_allStored (mk sk : String) (v : StoredTxn) (c : Categorized) :
    List.Perm (allStored (insertNested mk sk v c)) (v :: allStored c) := by
  induction c with
  | nil => simp [insertNested, allStored, insertOM]
  | cons p rest ih =>
    obtain ⟨k', sm⟩ := p
    by_cases hk : k' = mk
    · subst hk
      rw [insertNested_cons_eq]
      simp only [allStored, List.flatMap_cons]
      exact (insertOM_flat sk v sm).append_right _
    · rw [insertNested_cons_ne _ _ _ _ _ _ hk]
      simp only [allStored, List.flatMap_cons] at ih ⊢
      exact ((ih.append_left (sm.flatMap (fun q => q.2))).trans List.perm_middle)

theorem build_allStored_from (items : List (String × String × StoredTxn)) :
    ∀ c : Categorized,
      List.Perm (allStored (items.foldl (fun c i => insertNested i.1 i.2.1 i.2.2 c) c))
        (items.map (fun i => i.2.2) ++ allStored c) := by
  induction items with
  | nil => intro c; simp
  | cons i rest ih =>
    intro c
    simp only [List.foldl_cons, List.map_cons, List.cons_append]
    refine (ih (insertNested i.1 i.2.1 i.2.2 c)).trans ?_
    refine ((insertNested_allStored i.1 i.2.1 i.2.2 c).append_left _).trans ?_
    exact List.perm_middle

theorem build_allStored (items : List (String × String × StoredTxn)) :
    List.Perm (allStored (buildCategorized items)) (items.map (fun i => i.2.2)) := by
  have h := build_allStored_from items []
  simpa [allStored, buildCategorized] using h

/-! ### Key-order and bucket-content lemmas for the nested grouping -/

theorem insertOM_keys {τ : Type} (k : String) (v : τ) (m : List (String × List τ)) :
    (insertOM k v m).map Prod.fst =
      if k ∈ m.map Prod.fst then m.map Prod.fst else m.map Prod.fst ++ [k] := by
  induction m with
  | nil => simp [insertOM]
  | cons q rest ih =>
    obtain ⟨k', vs⟩ := q
    by_cases hk : k' = k
    · subst hk
      rw [insertOM_cons_eq]
      simp
    · rw [insertOM_cons_ne _ _ _ _ _ hk]
      simp only [List.map_cons, List.mem_cons, ih]
      have hne : ¬ k = k' := fun h => hk h.symm
      by_cases hmem : k ∈ rest.map Prod.fst <;> simp [hmem, hne]

theorem insertOM_lookup_self {τ : Type} (k : String) (v : τ) (m : List (String × List τ)) :
    (insertOM k v m).lookup k = some (((m.lookup k).getD []) ++ [v]) := by
  induction m with
  | nil => simp [insertOM, List.lookup]
  | cons q rest ih =>
    obtain ⟨k', vs⟩ := q
    by_cases hk : k' = k
    · subst hk
      rw [insertOM_cons_eq]
      simp [List.lookup]
    · rw [insertOM_cons_ne _ _ _ _ _ hk]
      have hne : (k == k') = false := beq_false_of_ne (fun h => hk h.symm)
      simp [List.lookup, hne, ih]

theorem insertOM_lookup_ne {τ : Type} (k k' : String) (v : τ) (m : List (String × List τ))
    (h : k' ≠ k) : (insertOM k v m).lookup k' = m.lookup k' := by
  induction m with
  | nil => simp [insertOM, List.lookup, beq_false_of_ne h]
  | cons q rest ih =>
    obtain ⟨k'', vs⟩ := q
    by_cases hk : k'' = k
    · subst hk
      rw [insertOM_cons_eq]
      simp [List.lookup, beq_false_of_ne h]
    · rw [insertOM_cons_ne _ _ _ _ _ hk]
      by_cases hk' : k' = k''
      · subst hk'
        simp [List.lookup]
      · simp [List.lookup, beq_false_of_ne hk', ih]

theorem insertNested_lookup_self (mk sk : String) (v : StoredTxn) (c : Categorized) :
    (insertNested mk sk v c).lookup mk = some (insertOM sk v (subsOf mk c)) := by
  induction c with
  | nil => simp [insertNested, List.lookup, subsOf, insertOM]
  | cons p rest ih =>
    obtain ⟨k', sm⟩ := p
    by_cases hk : k' = mk
    · subst hk
      rw [insertNested_cons_eq]
      simp [List.lookup, subsOf]
    · rw [insertNested_cons_ne _ _ _ _ _ _ hk]
      have hne : (mk == k') = false := beq_false_of_ne (fun h => hk h.symm)
      simp [List.lookup, hne, ih, subsOf]

theorem insertNested_lookup_ne (mk sk mk' : String) (v : StoredTxn) (c : Categorized)
    (h : mk' ≠ mk) : (insertNested mk sk v c).lookup mk' = c.lookup mk' := by
  induction c with
  | nil => simp [insertNested, List.lookup, beq_false_of_ne h]
  | cons p rest ih =>
    obtain ⟨k'', sm⟩ := p
    by_cases hk : k'' = mk
    · subst hk
      rw [insertNested_cons_eq]
      simp [List.lookup, beq_false_of_ne h]
    · rw [insertNested_cons_ne _ _ _ _ _ _ hk]
      by_cases hk' : mk' = k''
      · subst hk'
        simp [List.lookup]
      · simp [List.lookup, beq_false_of_ne hk', ih]

theorem insertNested_mainKeys (mk sk : String) (v : StoredTxn) (c : Categorized) :
    mainKeys (insertNested mk sk v c) =
      if mk ∈ mainKeys c then mainKeys c else mainKeys c ++ [mk] := by
  induction c with
  | nil => simp [insertNested, mainKeys]
  | cons p rest ih =>
    obtain ⟨k', sm⟩ := p
    by_cases hk : k' = mk
    · subst hk
      rw [insertNested_cons_eq]
      simp [mainKeys]
    · rw [insertNested_cons_ne _ _ _ _ _ _ hk]
      simp only [mainKeys, List.map_cons, List.mem_cons] at ih ⊢
      have hne : ¬ mk = k' := fun h => hk h.symm
      by_cases hmem : mk ∈ rest.map Prod.fst <;> simp [hmem, hne, ih]

theorem insertNested_subKeys_self (mk sk : String) (v : StoredTxn) (c : Categorized) :
    subKeys mk (insertNested mk sk v c) =
      if sk ∈ subKeys mk c then subKeys mk c else subKeys mk c ++ [sk] := by
  simp only [subKeys, subsOf, insertNested_lookup_self, Option.getD_some]
  exact insertOM_keys sk v _

theorem insertNested_subKeys_ne (mk sk mk' : String) (v : StoredTxn) (c : Categorized)
    (h : mk' ≠ mk) : subKeys mk' (insertNested mk sk v c) = subKeys mk' c := by
  simp only [subKeys, subsOf, insertNested_lookup_ne mk sk mk' v c h]

theorem insertNested_bucketAt_self (mk sk : String) (v : StoredTxn) (c : Categorized) :
    bucketAt mk sk (insertNested mk sk v c) = bucketAt mk sk c ++ [v] := by
  simp only [bucketAt, subsOf, insertNested_lookup_self, Option.getD_some,
    insertOM_lookup_self]

theorem insertNested_bucketAt_ne_sub (mk sk sk' : String) (v : StoredTxn) (c : Categorized)
    (h : sk' ≠ sk) : bucketAt mk sk' (insertNested mk sk v c) = bucketAt mk sk' c := by
  simp only [bucketAt, subsOf, insertNested_lookup_self, Option.getD_some,
    insertOM_lookup_ne _ _ _ _ h]

theorem insertNested_bucketAt_ne_main (mk sk mk' sk' : String) (v : StoredTxn)
    (c : Categorized) (h : mk' ≠ mk) :
    bucketAt mk' sk' (insertNested mk sk v c) = bucketAt mk' sk' c := by
  simp only [bucketAt, subsOf, insertNested_lookup_ne mk sk mk' v c h]

/-! ### Fold characterizations of the grouping -/

theorem firstSeenFrom_cons (acc : List String) (k : String) (l : List String) :
    firstSeenFrom acc (k :: l) = firstSeenFrom (if k ∈ acc then acc else acc ++ [k]) l := by
  simp [firstSeenFrom]

theorem build_mainKeys_from (items : List (String × String × StoredTxn)) :
    ∀ c : Categorized,
      mainKeys (items.foldl (fun c i => insertNested i.1 i.2.1 i.2.2 c) c) =
        firstSeenFrom (mainKeys c) (items.map (fun i => i.1)) := by
  induction items with
  | nil => intro c; simp [firstSeenFrom]
  | cons i rest ih =>
    intro c
    simp only [List.foldl_cons, List.map_cons, firstSeenFrom_cons]
    rw [ih, insertNested_mainKeys]

theorem build_subKeys_from (items : List (String × String × StoredTxn)) :
    ∀ (c : Categorized) (mk : String),
      subKeys mk (items.foldl (fun c i => insertNested i.1 i.2.1 i.2.2 c) c) =
        firstSeenFrom (subKeys mk c)
          ((items.filter (fun i => i.1 == mk)).map (fun i => i.2.1)) := by
  induction items with
  | nil => intro c mk; simp [firstSeenFrom]
  | cons i rest ih =>
    intro c mk
    simp only [List.foldl_cons, List.filter_cons]
    by_cases hmk : i.1 = mk
    · simp only [hmk, beq_self_eq_true, if_pos trivial, List.map_cons, firstSeenFrom_cons]
      rw [ih, ← hmk, insertNested_subKeys_self, hmk]
    · have hne : (i.1 == mk) = false := beq_false_of_ne hmk
      simp only [hne, Bool.false_eq_true, if_false]
      rw [ih, insertNested_subKeys_ne _ _ _ _ _ (fun h => hmk h.symm)]

theorem build_bucketAt_from (items : List (String × String × StoredTxn)) :
    ∀ (c : Categorized) (mk sk : String),
      bucketAt mk sk (items.foldl (fun c i => insertNested i.1 i.2.1 i.2.2 c) c) =
        bucketAt mk sk c ++
          ((items.filter (fun i => i.1 == mk && i.2.1 == sk)).map (fun i => i.2.2)) := by
  induction items with
  | nil => intro c mk sk; simp
  | cons i rest ih =>
    intro c mk sk
    simp only [List.foldl_cons, List.filter_cons]
    by_cases hmk : i.1 = mk
    · by_cases hsk : i.2.1 = sk
      · have hcond : (i.1 == mk && i.2.1 == sk) = true := by
          simp [hmk, hsk]
        simp only [hcond, if_pos trivial, List.map_cons]
        rw [ih]
        have hb : bucketAt mk sk (insertNested i.1 i.2.1 i.2.2 c) = bucketAt mk sk c ++ [i.2.2] := by
          rw [hmk, hsk]
          exact insertNested_bucketAt_self mk sk i.2.2 c
        rw [hb]
        simp
      · have hcond : (i.1 == mk && i.2.1 == sk) = false := by
          simp [hsk]
        simp only [hcond, Bool.false_eq_true, if_false]
        rw [ih]
        have hb : bucketAt mk sk (insertNested i.1 i.2.1 i.2.2 c) = bucketAt mk sk c := by
          rw [hmk]
          exact insertNested_bucketAt_ne_sub mk i.2.1 sk i.2.2 c (fun h => hsk h.symm)
        rw [hb]
    · have hcond : (i.1 == mk && i.2.1 == sk) = false := by
        simp [hmk]
      simp only [hcond, Bool.false_eq_true, if_false]
      rw [ih, insertNested_bucketAt_ne_main _ _ _ _ _ _ (fun h => hmk h.symm)]

/-! ### Lemmas about the date sort -/

theorem dateLe_total (a b : ℕ × ℕ × ℕ) : dateLe a b ∨ dateLe b a := by
  obtain ⟨y1, m1, d1⟩ := a
  obtain ⟨y2, m2, d2⟩ := b
  simp only [dateLe]
  omega

theorem dateLe_trans {a b c : ℕ × ℕ × ℕ} (h1 : dateLe a b) (h2 : dateLe b c) : dateLe a c := by
  obtain ⟨y1, m1, d1⟩ := a
  obtain ⟨y2, m2, d2⟩ := b
  obtain ⟨y3, m3, d3⟩ := c
  simp only [dateLe] at h1 h2 ⊢
  omega

theorem txnLe_total (a b : Transaction) : txnLe a b ∨ txnLe b a :=
  dateLe_total _ _

theorem txnLe_trans {a b c : Transaction} (h1 : txnLe a b) (h2 : txnLe b c) : txnLe a c :=
  dateLe_trans h1 h2

theorem insertByDate_perm (t : Transaction) (l : List Transaction) :
    List.Perm (insertByDate t l) (t :: l) := by
  induction l with
  | nil => exact List.Perm.refl _
  | cons u l ih =>
    simp only [insertByDate]
    by_cases h : txnLe u t
    · rw [if_pos h]
      exact (ih.cons u).trans (List.Perm.swap t u l)
    · rw [if_neg h]

theorem insertByDate_mem {t x : Transaction} {l : List Transaction} :
    x ∈ insertByDate t l ↔ x = t ∨ x ∈ l := by
  rw [(insertByDate_perm t l).mem_iff, List.mem_cons]

theorem insertByDate_sorted (t : Transaction) (l : List Transaction)
    (h : l.Pairwise txnLe) : (insertByDate t l).Pairwise txnLe := by
  induction l with
  | nil => simp [insertByDate]
  | cons u l ih =>
    rw [List.pairwise_cons] at h
    obtain ⟨hu, hl⟩ := h
    simp only [insertByDate]
    by_cases hut : txnLe u t
    · rw [if_pos hut]
      rw [List.pairwise_cons]
      constructor
      · intro x hx
        rcases insertByDate_mem.mp hx with rfl | hx'
        · exact hut
        · exact hu x hx'
      · exact ih hl
    · rw [if_neg hut]
      have htu : txnLe t u := (txnLe_total u t).resolve_left hut
      rw [List.pairwise_cons]
      constructor
      · intro x hx
        rcases List.mem_cons.mp hx with rfl | hx'
        · exact htu
        · exact txnLe_trans htu (hu x hx')
      · rw [List.pairwise_cons]
        exact ⟨hu, hl⟩

theorem sortTxns_perm_from (l : List Transaction) :
    ∀ acc : List Transaction,
      List.Perm (l.foldl (fun acc t => insertByDate t acc) acc) (l ++ acc) := by
  induction l with
  | nil => intro acc; simp
  | cons t rest ih =>
    intro acc
    simp only [List.foldl_cons, List.cons_append]
    refine (ih (insertByDate t acc)).trans ?_
    refine ((insertByDate_perm t acc).append_left rest).trans ?_
    exact List.perm_middle

theorem sortTxns_perm (l : List Transaction) : List.Perm (sortTxns l) l := by
  simpa [sortTxns] using sortTxns_perm_from l []

theorem sortTxns_sorted_from (l : List Transaction) :
    ∀ acc : List Transaction, acc.Pairwise txnLe →
      (l.foldl (fun acc t => insertByDate t acc) acc).Pairwise txnLe := by
  induction l with
  | nil => intro acc h; exact h
  | cons t rest ih =>
    intro acc h
    simp only [List.foldl_cons]
    exact ih _ (insertByDate_sorted t acc h)

theorem sortTxns_sorted (l : List Transaction) : (sortTxns l).Pairwise txnLe :=
  sortTxns_sorted_from l [] (List.Pairwise.nil)

theorem sort_by_date_perm (ts : List Transaction) : List.Perm (sort_by_date ts) ts := by
  rw [sort_by_date]
  by_cases h : ts.all (fun t => (strptimeMDY t.transactionDate).isSome)
  · rw [if_pos h]
    exact sortTxns_perm ts
  · rw [if_neg h]

/-! ### Lemmas about the classification loop -/

theorem categorize_some_of_parse {t : Transaction} (h : (parseAmount t.amount).isSome)
    (r : Except String String) :
    categorize_transaction t r =
      some (match r with
            | Except.error _ => ("Unknown", "error")
            | Except.ok content => parseCategorization content) := by
  rw [categorize_transaction.eq_def]
  cases hp : parseAmount t.amount with
  | none => rw [hp] at h; simp at h
  | some v => rfl

theorem categorize_none_of_parse {t : Transaction} (h : parseAmount t.amount = none)
    (r : Except String String) : categorize_transaction t r = none := by
  rw [categorize_transaction.eq_def, h]

theorem processLoop_ok (oracle : ℕ → Except String String) (ts : List Transaction)
    (hts : ∀ t ∈ ts, (parseAmount t.amount).isSome) :
    ∀ (i : ℕ) (c : Categorized), ∃ out, processLoop oracle i c ts = Except.ok out := by
  induction ts with
  | nil => intro i c; exact ⟨c, rfl⟩
  | cons t rest ih =>
    intro i c
    have ht : (parseAmount t.amount).isSome := hts t (List.mem_cons_self t rest)
    rw [show processLoop oracle i c (t :: rest) =
        (match categorize_transaction t (oracle i) with
         | none => Except.error "ValueError"
         | some (mc, sc) =>
             processLoop oracle (i + 1) (insertNested mc sc (storedOf t) c) rest) from rfl,
      categorize_some_of_parse ht (oracle i)]
    exact ih (fun u hu => hts u (List.mem_cons_of_mem t hu)) (i + 1) _

theorem processLoop_err (oracle : ℕ → Except String String) (ts : List Transaction)
    (hts : ∃ t ∈ ts, parseAmount t.amount = none) :
    ∀ (i : ℕ) (c : Categorized), processLoop oracle i c ts = Except.error "ValueError" := by
  induction ts with
  | nil => simp at hts
  | cons t rest ih =>
    intro i c
    rw [show processLoop oracle i c (t :: rest) =
        (match categorize_transaction t (oracle i) with
         | none => Except.error "ValueError"
         | some (mc, sc) =>
             processLoop oracle (i + 1) (insertNested mc sc (storedOf t) c) rest) from rfl]
    rcases hts with ⟨u, hu, hpu⟩
    rcases List.mem_cons.mp hu with rfl | hu'
    · rw [categorize_none_of_parse hpu (oracle i)]
    · cases hc : categorize_transaction t (oracle i) with
      | none => rfl
      | some pr =>
        obtain ⟨mc, sc⟩ := pr
        exact ih ⟨u, hu', hpu⟩ (i + 1) _

/-! ### Characterization of the export under successful parsing -/

theorem bucketTotal_eq (ts : List StoredTxn) (h : ∀ t ∈ ts, (pythonFloat t.amount).isSome) :
    bucketTotal ts = some (bucketValD ts) := by
  rw [bucketTotal,
    omapList_eq_map _ amountValD ts (fun t ht => opt_eq_some_getD _ _ (h t ht))]
  rfl

theorem mem_bucketsOf {c : Categorized} {p : String × List (String × List StoredTxn)}
    {q : String × List StoredTxn} (hp : p ∈ c) (hq : q ∈ p.2) : q.2 ∈ bucketsOf c := by
  simp only [bucketsOf, List.mem_flatMap]
  exact ⟨p, hp, List.mem_map_of_mem Prod.snd hq⟩

/-- The total of the report when every amount parses. -/
def totalValD (c : Categorized) : ℚ :=
  ((bucketsOf c).map bucketValD).sum

theorem grandTotal_eq_of_parse (c : Categorized) (h : AllAmountsParse c) :
    grandTotal c = some (totalValD c) := by
  rw [grandTotal, omapList_eq_map bucketTotal bucketValD (bucketsOf c) ?_]
  · rfl
  · intro b hb
    simp only [bucketsOf, List.mem_flatMap, List.mem_map] at hb
    obtain ⟨p, hp, q, hq, rfl⟩ := hb
    exact bucketTotal_eq q.2 (fun t ht => h p hp q hq t ht)

theorem subcatBlock_eq (mk : String) (q : String × List StoredTxn)
    (h : ∀ t ∈ q.2, (pythonFloat t.amount).isSome) :
    subcatBlock mk q =
      some (subHeaderRow mk q.1 (bucketValD q.2) :: q.2.map (txnRow mk q.1) ++ [blankRow],
            bucketValD q.2) := by
  rw [subcatBlock,
    omapList_eq_map _ amountValD q.2 (fun t ht => opt_eq_some_getD _ _ (h t ht))]
  rfl

theorem catBlock_eq (p : String × List (String × List StoredTxn))
    (h : ∀ q ∈ p.2, ∀ t ∈ q.2, (pythonFloat t.amount).isSome) :
    catBlock p =
      some ((p.2.map (fun q =>
          subHeaderRow p.1 q.1 (bucketValD q.2) :: q.2.map (txnRow p.1 q.1) ++ [blankRow])).flatten
        ++ [catTotalRow p.1 ((p.2.map (fun q => bucketValD q.2)).sum), blankRow]) := by
  rw [catBlock,
    omapList_eq_map (subcatBlock p.1)
      (fun q => (subHeaderRow p.1 q.1 (bucketValD q.2)
        :: q.2.map (txnRow p.1 q.1) ++ [blankRow], bucketValD q.2))
      p.2 (fun q hq => subcatBlock_eq p.1 q (h q hq))]
  simp only [Option.bind_eq_bind, Option.some_bind, List.map_map]
  rfl

theorem export_to_csv_eq (c : Categorized) (files : List String) (h : AllAmountsParse c) :
    export_to_csv c files =
      some (filesRow files :: blankRow ::
        (c.map (fun p =>
          (p.2.map (fun q =>
            subHeaderRow p.1 q.1 (bucketValD q.2)
              :: q.2.map (txnRow p.1 q.1) ++ [blankRow])).flatten
          ++ [catTotalRow p.1 ((p.2.map (fun q => bucketValD q.2)).sum), blankRow])).flatten
        ++ [grandTotalRow (totalValD c)]) := by
  rw [export_to_csv,
    omapList_eq_map catBlock
      (fun p =>
        (p.2.map (fun q =>
          subHeaderRow p.1 q.1 (bucketValD q.2)
            :: q.2.map (txnRow p.1 q.1) ++ [blankRow])).flatten
        ++ [catTotalRow p.1 ((p.2.map (fun q => bucketValD q.2)).sum), blankRow])
      c (fun p hp => catBlock_eq p (fun q hq t ht => h p hp q hq t ht)),
    grandTotal_eq_of_parse c h]
  rfl

theorem allAmountsParse_of_grandTotal {c : Categorized} {v : ℚ}
    (h : grandTotal c = some v) : AllAmountsParse c := by
  intro p hp q hq t ht
  have h1 : (omapList bucketTotal (bucketsOf c)).isSome := by
    rw [grandTotal] at h
    cases ho : omapList bucketTotal (bucketsOf c)
    · rw [ho] at h; simp at h
    · simp
  have h2 : (bucketTotal q.2).isSome :=
    (omapList_isSome_iff _ _).mp h1 q.2 (mem_bucketsOf hp hq)
  have h3 : (omapList (fun t => pythonFloat t.amount) q.2).isSome := by
    rw [bucketTotal] at h2
    cases ho : omapList (fun t => pythonFloat t.amount) q.2
    · rw [ho] at h2; simp at h2
    · simp
  exact (omapList_isSome_iff _ _).mp h3 t ht

/-! ### Concrete values used by witnesses and counterexamples -/

theorem pythonFloat_p500 : pythonFloat "5.00" = some 5 := by
  have h : pythonFloatParts "5.00" = some (false, 5, 0, 2, 0) := by decide
  rw [pythonFloat, h, Option.map_some']
  norm_num [ratOfParts]

theorem pythonFloat_m500 : pythonFloat "-5.00" = some (-5) := by
  have h : pythonFloatParts "-5.00" = some (true, 5, 0, 2, 0) := by decide
  rw [pythonFloat, h, Option.map_some']
  norm_num [ratOfParts]

theorem pythonFloat_m5412 : pythonFloat "-54.12" = some (-54.12) := by
  have h : pythonFloatParts "-54.12" = some (true, 54, 12, 2, 0) := by decide
  rw [pythonFloat, h, Option.map_some']
  norm_num [ratOfParts]

theorem parseAmount_1200 : parseAmount "$1,200.00" = some 1200 := by
  have h0 : pythonFloat "$1,200.00" = none := by decide
  have h1 : pythonFloatParts "1200.00" = some (false, 1200, 0, 2, 0) := by decide
  have h2 : removeChar ',' (removeChar '$' "$1,200.00") = "1200.00" := by decide
  rw [parseAmount, h0, h2, pythonFloat, h1, Option.map_some']
  norm_num [ratOfParts]

theorem fmt2_0 : fmt2 (0 : ℚ) = "0.00" := by
  have h : roundHalfEven ((0 : ℚ) * 100) = 0 := by norm_num [roundHalfEven]
  rw [fmt2, h]
  decide

theorem fmt2_5 : fmt2 (5 : ℚ) = "5.00" := by
  have h : roundHalfEven ((5 : ℚ) * 100) = 500 := by norm_num [roundHalfEven]
  rw [fmt2, h]
  decide

theorem fmt2_5412 : fmt2 (54.12 : ℚ) = "54.12" := by
  have h : roundHalfEven ((54.12 : ℚ) * 100) = 5412 := by norm_num [roundHalfEven]
  rw [fmt2, h]
  decide

theorem format_amount_zero : format_amount 0 = "-$0.00" := by
  rw [format_amount, if_neg (by norm_num), abs_zero, fmt2_0]
  decide

theorem format_amount_m5412 : format_amount (-54.12) = "-$54.12" := by
  rw [format_amount, if_neg (by norm_num), show |(-54.12 : ℚ)| = 54.12 by norm_num,
    fmt2_5412]
  decide

theorem format_amount_p5 : format_amount 5 = "+$5.00" := by
  rw [format_amount, if_pos (by norm_num), show |(5 : ℚ)| = 5 by norm_num, fmt2_5]
  decide

/-- A transaction with a parseable amount. -/
def txOK : Transaction :=
  ⟨"01/05/2024", "SAMSCLUB #1234", "-54.12", "shopping", "", "0.0", "credit"⟩

/-- A second transaction with a parseable amount, dated later. -/
def txOK2 : Transaction :=
  ⟨"01/06/2024", "COFFEE", "-4.50", "", "", "0.0", "credit"⟩

/-- A transaction whose amount parses in no way. -/
def txNA : Transaction :=
  ⟨"01/06/2024", "PENDING", "N/A", "", "", "0.0", "credit"⟩

/-- A transaction whose date does not parse. -/
def txBadDate : Transaction :=
  ⟨"pending", "HOLD", "2.00", "", "", "0.0", "credit"⟩

/-- Stored transactions with small amounts. -/
def stP5 : StoredTxn := ⟨"01/05/2024", "PAYROLL", "5.00", "chase", ""⟩

def stM5 : StoredTxn := ⟨"01/06/2024", "COFFEE", "-5.00", "chase", ""⟩

def st54 : StoredTxn := ⟨"01/05/2024", "SAMSCLUB #1234", "-54.12", "credit", "shopping"⟩

def st1200 : StoredTxn := ⟨"01/07/2024", "DEPOSIT", "$1,200.00", "chase", ""⟩

/-- A categorized mapping whose amounts sum to zero. -/
def cZero : Categorized :=
  [("Incoming", [("work", [stP5])]), ("Spending", [("eating out", [stM5])])]

/-- A categorized mapping with a single positive transaction. -/
def cP5 : Categorized := [("Incoming", [("work", [stP5])])]

/-- A categorized mapping with one outflow transaction. -/
def c54 : Categorized := [("Spending", [("groceries", [st54])])]

/-- A categorized mapping holding a stored `"$1,200.00"` amount. -/
def c1200 : Categorized := [("Incoming", [("payment", [st1200])])]

/-- The Chase debit header signature the code tests for. -/
def hdrDebit : String := "Details,Posting Date,Description,Amount,Type,Balance"

/-- A credit-schema header. -/
def hdrCredit : String := "Transaction Date,Description,Amount,Category"

/-- The header signature exactly as the claim spells it. -/
def hdrClaimC6 : String := "Detail, Posting Date, Description, Amount, Type, Balance"

def rowD : RawRow :=
  { postingDate := "01/05/2024", description := "COFFEE", amount := "-4.50",
    rowType := "ACH_DEBIT", balance := "100.00" }

def rowC : RawRow :=
  { transactionDate := "02/06/2024", description := "STORE", amount := "-10.00",
    category := "shopping" }

def rowBoth : RawRow :=
  { transactionDate := "02/06/2024", postingDate := "01/05/2024", description := "X",
    amount := "-1.00", category := "orig" }

def rowNA : RawRow :=
  { transactionDate := "01/06/2024", description := "PENDING", amount := "N/A" }

def rowOK : RawRow :=
  { transactionDate := "01/05/2024", description := "STORE", amount := "-10.00",
    category := "shopping" }

/-- One credit file holding a good row followed by an `"N/A"`-amount row. -/
def filesBad : List SourceFile := [⟨"visa_card.csv", hdrCredit, [rowOK, rowNA]⟩]

/-- An oracle standing for a classifier that always answers. -/
def oracleOk : ℕ → Except String String := fun _ => Except.ok "Spending: groceries"

/-- An oracle standing for a classifier whose every call fails. -/
def oracleErr : ℕ → Except String String := fun _ => Except.error "quota exceeded"

/-! ### Claim theorems -/

/-- Claim C1 (counterexample): a batch containing the row with amount `"N/A"`
is NOT processed row-by-row — `process_multiple_files` aborts with the
uncaught `ValueError`, and no categorized output is produced, contradicting
the claim that the unparseable row is excluded while the rest of the batch
proceeds. -/
theorem C1_counterexample :
    process_multiple_files filesBad oracleOk = Except.error "ValueError" ∧
    ¬ ∃ out, process_multiple_files filesBad oracleOk = Except.ok out := by
  have h : process_multiple_files filesBad oracleOk = Except.error "ValueError" := by rfl
  refine ⟨h, ?_⟩
  rintro ⟨out, hout⟩
  rw [h] at hout
  exact Except.noConfusion hout

/-- Claim C1 (amended): a row whose amount cannot be parsed as a decimal even
after stripping `$` and `,` raises an uncaught `ValueError` inside
`categorize_transaction` and aborts processing of the entire batch — the row
is not excluded and the remaining rows do not proceed. -/
theorem C1_batch_aborts_on_unparseable_amount
    (files : List SourceFile) (oracle : ℕ → Except String String)
    (h : ∃ t ∈ files.flatMap (fun f => read_transactions f.fileName f.header f.rows),
        parseAmount t.amount = none) :
    process_multiple_files files oracle = Except.error "ValueError" := by
  show processLoop oracle 0 []
      (sort_by_date (files.flatMap (fun f => read_transactions f.fileName f.header f.rows)))
    = Except.error "ValueError"
  refine processLoop_err oracle _ ?_ 0 []
  rcases h with ⟨t, ht, hp⟩
  exact ⟨t, (sort_by_date_perm _).mem_iff.mpr ht, hp⟩

/-- Two credit files, the second holding a row with amount `"N/A"`. -/
def filesBad2 : List SourceFile :=
  [⟨"ally_savings.csv", hdrCredit, [rowOK]⟩, ⟨"visa_card.csv", hdrCredit, [rowNA]⟩]

set_option maxHeartbeats 1000000 in
/-- Claim C1 (witness): the amended statement applied at a concrete batch. -/
theorem C1_witness :
    process_multiple_files filesBad2 oracleErr = Except.error "ValueError" :=
  C1_batch_aborts_on_unparseable_amount filesBad2 oracleErr
    ⟨⟨"01/06/2024", "PENDING", "N/A", "", "", "0.0", "visa"⟩, by decide, by decide⟩

set_option maxHeartbeats 2000000 in
/-- Claim C2: the grand total of the categorized mapping built from any
classified batch equals the exact sum of every individual transaction's
parsed signed amount, independent of the grouping; and it equals the sum
over main categories of the sums of their subcategory totals. -/
theorem C2_grand_total_exact_sum (items : List (String × String × StoredTxn)) :
    grandTotal (buildCategorized items) =
        (omapList (fun i => pythonFloat i.2.2.amount) items).map List.sum ∧
    grandTotal (buildCategorized items) =
        (omapList (fun p => (omapList (fun q => bucketTotal q.2) p.2).map List.sum)
          (buildCategorized items)).map List.sum := by
  constructor
  · have hb : bucketTotal =
        fun ts => (omapList (fun t => pythonFloat t.amount) ts).map List.sum := rfl
    have h1 : grandTotal (buildCategorized items) =
        (omapList (fun t => pythonFloat t.amount)
          (allStored (buildCategorized items))).map List.sum := by
      rw [grandTotal, hb, ← bucketsOf_flatten]
      exact osum_flatten _ _
    rw [h1, osum_perm _ (build_allStored items), omapList_map]
  · have e1 : omapList
        (fun p => (omapList (fun q => bucketTotal q.2) p.2).map List.sum)
        (buildCategorized items) =
        omapList (fun sm => (omapList (fun q => bucketTotal q.2) sm).map List.sum)
          ((buildCategorized items).map (fun p => p.2)) :=
      (omapList_map
        (fun sm => (omapList (fun q => bucketTotal q.2) sm).map List.sum)
        (fun p => p.2)
        (buildCategorized items)).symm
    have e2 := osum_flatten (fun q => bucketTotal q.2)
      ((buildCategorized items).map (fun p => p.2))
    have e3 : ((buildCategorized items).map (fun p => p.2)).flatten =
        (buildCategorized items).flatMap (fun p => p.2) :=
      (List.flatMap_def _ _).symm
    have e4 : omapList (fun q => bucketTotal q.2)
          ((buildCategorized items).flatMap (fun p => p.2)) =
        omapList bucketTotal (bucketsOf (buildCategorized items)) := by
      rw [show bucketsOf (buildCategorized items) =
          ((buildCategorized items).flatMap (fun p => p.2)).map Prod.snd from by
        rw [List.map_flatMap]; rfl]
      exact (omapList_map bucketTotal Prod.snd _).symm
    rw [grandTotal, e1, e2, e3, e4]

/-- Claim C3: the pre-classification date sort is all-or-nothing — when every
date parses the batch comes out ordered by parsed date ascending (a
permutation of the input), and when any date fails to parse the output list
is exactly the input list. -/
theorem C3_sort_all_or_nothing (ts : List Transaction) :
    ((∀ t ∈ ts, (strptimeMDY t.transactionDate).isSome) →
        (sort_by_date ts).Pairwise txnLe ∧ List.Perm (sort_by_date ts) ts) ∧
    ((∃ t ∈ ts, strptimeMDY t.transactionDate = none) → sort_by_date ts = ts) := by
  constructor
  · intro h
    have hall : ts.all (fun t => (strptimeMDY t.transactionDate).isSome) = true :=
      List.all_eq_true.mpr h
    rw [sort_by_date, if_pos hall]
    exact ⟨sortTxns_sorted ts, sortTxns_perm ts⟩
  · rintro ⟨t, ht, hnone⟩
    have hne : ¬ ts.all (fun t => (strptimeMDY t.transactionDate).isSome) = true := by
      rw [List.all_eq_true]
      intro hall
      have hs := hall t ht
      rw [hnone] at hs
      simp at hs
    rw [sort_by_date, if_neg hne]

/-- Claim C3 (witness): the two branches at concrete batches — a parseable
batch comes out date-ordered, and one bad date freezes the original order. -/
theorem C3_witness :
    ((sort_by_date [txOK2, txOK]).Pairwise txnLe ∧
      List.Perm (sort_by_date [txOK2, txOK]) [txOK2, txOK]) ∧
    sort_by_date [txOK2, txBadDate] = [txOK2, txBadDate] := by
  constructor
  · exact (C3_sort_all_or_nothing [txOK2, txOK]).1 (by decide)
  · exact (C3_sort_all_or_nothing [txOK2, txBadDate]).2 ⟨txBadDate, by decide, by decide⟩

/-- Claim C4 (counterexample): the classifier response `"Spending:"` (a colon
with nothing after it) produces the EMPTY subcategory, refuting the claim
that `subCategory` is never empty. -/
theorem C4_counterexample :
    categorize_transaction txOK (Except.ok "Spending:") = some ("Spending", "") ∧
    ¬ (∀ mc sc, categorize_transaction txOK (Except.ok "Spending:") = some (mc, sc) →
        sc ≠ "") := by
  have h : categorize_transaction txOK (Except.ok "Spending:") = some ("Spending", "") := by
    decide
  exact ⟨h, fun hall => hall "Spending" "" h rfl⟩

/-- Claim C4 (amended): the response is stripped and split on its first
colon; the part before the colon (stripped) is the main category; with no
colon the subcategory defaults to `"general"`, and on classification failure
it is `"error"`; with a colon the subcategory is the stripped text after the
colon, which is EMPTY when the colon ends the response. -/
theorem C4_subcategory_parsing (t : Transaction) (resp e : String)
    (h : (parseAmount t.amount).isSome) :
    categorize_transaction t (Except.error e) = some ("Unknown", "error") ∧
    ((pyStrip resp).toList.contains ':' = false →
      categorize_transaction t (Except.ok resp) = some (pyStrip (pyStrip resp), "general")) ∧
    ((pyStrip resp).toList.contains ':' = true →
      categorize_transaction t (Except.ok resp) =
        some (pyStrip (((pyStrip resp).toList.takeWhile (fun a => a != ':')).asString),
              pyStrip ((((pyStrip resp).toList.dropWhile (fun a => a != ':')).drop 1).asString))) := by
  refine ⟨?_, ?_, ?_⟩
  · rw [categorize_some_of_parse h]
  · intro hc
    simp at hc
    rw [categorize_some_of_parse h]
    simp [parseCategorization, pySplit1, hc]
  · intro hc
    simp at hc
    rw [categorize_some_of_parse h]
    simp [parseCategorization, pySplit1, hc]

/-- Claim C4 (witness): the amended statement at a concrete transaction —
failure maps to `("Unknown", "error")` and a colon-free response defaults the
subcategory to `"general"`. -/
theorem C4_witness :
    categorize_transaction txOK (Except.error "quota exceeded") =
      some ("Unknown", "error") ∧
    categorize_transaction txOK (Except.ok "Unknown") = some ("Unknown", "general") := by
  constructor
  · exact (C4_subcategory_parsing txOK "Unknown" "quota exceeded" (by decide)).1
  · have h := (C4_subcategory_parsing txOK "Unknown" "quota exceeded" (by decide)).2.1
      (by decide)
    rw [show pyStrip (pyStrip "Unknown") = "Unknown" from by decide] at h
    exact h

/-- Claim C5: for a transaction whose amount parses, every failure of the
classification service call is caught and mapped to `("Unknown", "error")`
for that transaction only, and a batch of such transactions always finishes
classification — with any oracle, including one that always fails. -/
theorem C5_classification_failure_isolated (t : Transaction) (e : String)
    (h : (parseAmount t.amount).isSome) :
    categorize_transaction t (Except.error e) = some ("Unknown", "error") ∧
    ∀ (ts : List Transaction) (oracle : ℕ → Except String String),
      (∀ u ∈ ts, (parseAmount u.amount).isSome) →
      ∃ out, processLoop oracle 0 [] ts = Except.ok out := by
  constructor
  · rw [categorize_some_of_parse h]
  · intro ts oracle hts
    exact processLoop_ok oracle ts hts 0 []

/-- Claim C5 (witness): the statement at concrete transactions, with an
oracle that fails on every call — the batch still completes. -/
theorem C5_witness :
    categorize_transaction txOK (Except.error "timeout") = some ("Unknown", "error") ∧
    ∃ out, processLoop oracleErr 0 [] [txOK, txOK2] = Except.ok out := by
  have h := C5_classification_failure_isolated txOK "timeout" (by decide)
  exact ⟨h.1, h.2 [txOK, txOK2] oracleErr (by decide)⟩

/-- Claim C6 (counterexample): a header line that is exactly the claim's
signature `Detail, Posting Date, Description, Amount, Type, Balance` (spaces
after the commas, `Detail` without the final `s`) is NOT detected as the
checking/debit schema — its rows get the credit mapping (transaction date
from `Transaction Date`, category kept), not the debit one. -/
theorem C6_counterexample :
    isDebitFormat hdrClaimC6 = false ∧
    (read_transactions "chase_x.csv" hdrClaimC6 [rowBoth]).map
        (fun t => (t.transactionDate, t.category)) = [("02/06/2024", "orig")] ∧
    ("02/06/2024", "orig") ≠ ("01/05/2024", "") := by
  refine ⟨by decide, by decide, by decide⟩

/-- Claim C6 (amended): the checking/debit schema is selected exactly when
the first line contains the substring
`Details,Posting Date,Description,Amount,Type,Balance` (plural `Details`, no
spaces); such files map the posting date to the transaction date and empty
the category, every other header gets the credit mapping, and no file is
ever rejected (every row yields a transaction). -/
theorem C6_schema_detection (name header : String) (rows : List RawRow) :
    (isDebitFormat header = true →
      read_transactions name header rows = rows.map (fun r =>
        { transactionDate := r.postingDate, description := r.description,
          amount := r.amount, category := "", txnType := r.rowType,
          balance := r.balance, account := accountName name })) ∧
    (isDebitFormat header = false →
      read_transactions name header rows = rows.map (fun r =>
        { transactionDate := r.transactionDate, description := r.description,
          amount := r.amount, category := r.category, txnType := r.rowType,
          balance := r.balance, account := accountName name })) ∧
    (read_transactions name header rows).length = rows.length := by
  refine ⟨?_, ?_, ?_⟩
  · intro h
    simp [read_transactions, h]
  · intro h
    simp [read_transactions, h]
  · simp [read_transactions]

/-- Claim C6 (witness): both schema mappings at concrete files. -/
theorem C6_witness :
    read_transactions "chase_checking.csv" hdrDebit [rowD] =
      [⟨"01/05/2024", "COFFEE", "-4.50", "", "ACH_DEBIT", "100.00", "chase"⟩] ∧
    read_transactions "visa_card.csv" hdrCredit [rowC] =
      [⟨"02/06/2024", "STORE", "-10.00", "shopping", "", "0.0", "visa"⟩] := by
  constructor
  · rw [(C6_schema_detection "chase_checking.csv" hdrDebit [rowD]).1 (by decide)]
    decide
  · rw [(C6_schema_detection "visa_card.csv" hdrCredit [rowC]).2.1 (by decide)]
    decide

/-- Claim C7 (code bug): the amount `"$1,200.00"` parses to `1200` in
`categorize_transaction` (after stripping `$` and `,`), and the normalizer
keeps the raw string in the transaction, but the totals of
`display_results`/`export_to_csv` apply plain `float` to that raw string and
raise `ValueError` — the pipeline does NOT process this row without error. -/
theorem C7_pipeline_crashes_on_currency_amount :
    parseAmount "$1,200.00" = some 1200 ∧
    (read_transactions "credit_a.csv" hdrCredit
        [{ transactionDate := "01/07/2024", description := "DEPOSIT",
           amount := "$1,200.00" }]).map (fun t => t.amount) = ["$1,200.00"] ∧
    pythonFloat "$1,200.00" = none ∧
    bucketTotal [st1200] = none ∧
    export_to_csv c1200 ["credit_a.csv"] = none := by
  exact ⟨parseAmount_1200, by decide, by decide, by decide, by decide⟩

theorem filesRow_amount (files : List String) : (filesRow files).amount = "" := rfl

theorem blankRow_amount : blankRow.amount = "" := rfl

theorem subHeaderRow_amount (mk sk : String) (s : ℚ) :
    (subHeaderRow mk sk s).amount = "$" ++ fmt2 |s| := rfl

theorem txnRow_amount (mk sk : String) (t : StoredTxn) : (txnRow mk sk t).amount = t.amount :=
  rfl

theorem catTotalRow_amount (mk : String) (s : ℚ) :
    (catTotalRow mk s).amount = "$" ++ fmt2 |s| := rfl

theorem grandTotalRow_amount (s : ℚ) : (grandTotalRow s).amount = format_amount s := rfl

/-- Claim C8 (counterexample): in the exported report of a single `-54.12`
transaction, the transaction's `Amount` cell holds the raw string `-54.12`,
not the signed-format `-$54.12` that `format_amount` would produce — only
the grand total row is signed. -/
theorem C8_counterexample :
    (export_to_csv c54 ["visa_card.csv"]).map (fun rows => rows.map (fun r => r.amount)) =
      some ["", "", "$54.12", "-54.12", "", "$54.12", "", "-$54.12"] ∧
    format_amount_str "-54.12" = "-$54.12" ∧
    "-54.12" ≠ "-$54.12" := by
  refine ⟨?_, ?_, by decide⟩
  · have hb : bucketValD [st54] = -54.12 := by
      simp [bucketValD, amountValD, show st54.amount = "-54.12" from rfl, pythonFloat_m5412]
    have ht : totalValD [("Spending", [("groceries", [st54])])] = -54.12 := by
      simp [totalValD, bucketsOf, hb]
    have habs : |(-54.12 : ℚ)| = 54.12 := by norm_num
    rw [export_to_csv_eq c54 ["visa_card.csv"] (by decide)]
    simp only [c54]
    simp [filesRow_amount, blankRow_amount, subHeaderRow_amount, txnRow_amount,
      catTotalRow_amount, grandTotalRow_amount, hb, ht, habs, fmt2_5412,
      format_amount_m5412, show st54.amount = "-54.12" from rfl]
  · rw [format_amount_str, pythonFloat_m5412]
    exact format_amount_m5412

/-- Claim C8 (amended): in the exported report, each transaction row's
`Amount` cell is the raw stored amount string written as-is; each
subcategory header and each category total carries the unsigned absolute
two-decimal magnitude `$X.XX`; only the final grand total uses the signed
`format_amount` rendering. -/
theorem C8_export_amount_rendering (c : Categorized) (files : List String)
    (h : AllAmountsParse c) :
    ∃ rows, export_to_csv c files = some rows ∧
      rows.map (fun r => r.amount) =
        "" :: "" ::
          (c.map (fun p =>
            (p.2.map (fun q =>
              ("$" ++ fmt2 |bucketValD q.2|) :: q.2.map (fun t => t.amount) ++ [""])).flatten
            ++ ["$" ++ fmt2 |(p.2.map (fun q => bucketValD q.2)).sum|, ""])).flatten
          ++ [format_amount (totalValD c)] := by
  refine ⟨_, export_to_csv_eq c files h, ?_⟩
  simp [List.map_cons, List.map_append, List.map_flatten, List.map_map, Function.comp_def,
    filesRow_amount, blankRow_amount, subHeaderRow_amount, txnRow_amount,
    catTotalRow_amount, grandTotalRow_amount]

/-- Claim C8 (witness): the amended statement at a concrete report with one
positive `5.00` transaction. -/
theorem C8_witness :
    ∃ rows, export_to_csv cP5 ["chase_checking.csv"] = some rows ∧
      rows.map (fun r => r.amount) =
        ["", "", "$5.00", "5.00", "", "$5.00", "", "+$5.00"] := by
  obtain ⟨rows, h1, h2⟩ := C8_export_amount_rendering cP5 ["chase_checking.csv"] (by decide)
  refine ⟨rows, h1, ?_⟩
  rw [h2]
  have hb : bucketValD [stP5] = 5 := by
    simp [bucketValD, amountValD, show stP5.amount = "5.00" from rfl, pythonFloat_p500]
  have ht : totalValD [("Incoming", [("work", [stP5])])] = 5 := by
    simp [totalValD, bucketsOf, hb]
  have habs : |(5 : ℚ)| = 5 := by norm_num
  simp only [cP5]
  simp [hb, ht, habs, fmt2_5, format_amount_p5, show stP5.amount = "5.00" from rfl]

/-- Claim C9: the report's main categories appear in the order each was
first seen among the classified transactions, the subcategories of each main
category in the order first seen within it, and each bucket holds exactly
its transactions in arrival order. -/
theorem C9_first_seen_order (items : List (String × String × StoredTxn)) :
    mainKeys (buildCategorized items) = firstSeen (items.map (fun i => i.1)) ∧
    (∀ mk, subKeys mk (buildCategorized items) =
        firstSeen ((items.filter (fun i => i.1 == mk)).map (fun i => i.2.1))) ∧
    (∀ mk sk, bucketAt mk sk (buildCategorized items) =
        (items.filter (fun i => i.1 == mk && i.2.1 == sk)).map (fun i => i.2.2)) := by
  refine ⟨?_, ?_, ?_⟩
  · rw [buildCategorized, build_mainKeys_from]
    rfl
  · intro mk
    rw [buildCategorized, build_subKeys_from]
    rfl
  · intro mk sk
    rw [buildCategorized, build_bucketAt_from]
    rfl

theorem getLast?_cons_concat {α : Type} (a : α) (l : List α) (x : α) :
    (a :: (l ++ [x])).getLast? = some x := by
  rw [show a :: (l ++ [x]) = (a :: l) ++ [x] from rfl, List.getLast?_concat]

/-- Claim C10: `format_amount` at exactly zero takes the non-positive branch
and yields `-$0.00`, and a batch whose amounts sum to zero gets `-$0.00` as
the `Amount` of the final grand-total row of the exported report. -/
theorem C10_zero_formats_negative (c : Categorized) (files : List String)
    (h : grandTotal c = some 0) :
    format_amount 0 = "-$0.00" ∧
    (export_to_csv c files).map (fun rows => rows.getLast?.map (fun r => r.amount)) =
      some (some "-$0.00") := by
  have hp : AllAmountsParse c := allAmountsParse_of_grandTotal h
  have htot : totalValD c = 0 := by
    have h2 := grandTotal_eq_of_parse c hp
    rw [h] at h2
    exact (Option.some_inj.mp h2.symm)
  refine ⟨format_amount_zero, ?_⟩
  rw [export_to_csv_eq c files hp, htot]
  simp [List.getLast?_cons_cons, getLast?_cons_concat, grandTotalRow_amount,
    format_amount_zero]

/-- The concrete zero-sum batch: `5.00` income and `-5.00` spending. -/
theorem grandTotal_cZero : grandTotal cZero = some 0 := by
  have h5 : bucketTotal [stP5] = some 5 := by
    simp [bucketTotal, omapList, stP5, pythonFloat_p500]
  have hm5 : bucketTotal [stM5] = some (-5) := by
    simp [bucketTotal, omapList, stM5, pythonFloat_m500]
  simp [grandTotal, bucketsOf, cZero, omapList, h5, hm5]

/-- Claim C10 (witness): the statement applied at the concrete zero-sum
batch. -/
theorem C10_witness :
    format_amount 0 = "-$0.00" ∧
    (export_to_csv cZero ["chase_checking.csv", "visa_card.csv"]).map
        (fun rows => rows.getLast?.map (fun r => r.amount)) = some (some "-$0.00") :=
  C10_zero_formats_negative cZero ["chase_checking.csv", "visa_card.csv"] grandTotal_cZero
